import Mathlib

/-!
Verification of the datafusion-ray stage planner (`src/planner.rs`) and
shuffle writer operator (`src/shuffle/writer.rs`) against their
natural-language specification.

The Rust code is shallowly embedded: the physical-plan tree is an inductive
type whose constructors are the operator shapes the planner inspects
(`RepartitionExec`, `CoalescePartitionsExec`, `SortPreservingMergeExec`,
`ShuffleWriterExec`, `ShuffleReaderExec`) plus a generic node for every
other operator; the `ExecutionGraph`'s `HashMap<usize, QueryStage>` is an
association list whose insert conses, and the `AtomicUsize` id generator is
a `Nat` threaded through explicit state passing.  Rust panics
(`unimplemented!`, `.unwrap()` on `Err`) are modelled by a dedicated
`abort` outcome, distinct from returned error values.
-/

/-- Arrow data types; only `Int32` is distinguished because the writer's
metrics batch uses it, everything else is opaque. -/
inductive DType where
  | int32
  | otherType (name : String)
deriving DecidableEq

/-- An Arrow schema field: `Field::new(name, data_type, nullable)`. -/
structure ArrowField where
  name : String
  dtype : DType
  nullable : Bool
deriving DecidableEq

/-- A schema is the list of its fields. -/
def Schema := List ArrowField

instance : DecidableEq Schema := by
  unfold Schema
  infer_instance

/-- Physical expressions as far as the writer inspects them: the
constructor normalization in `ShuffleWriterExec::new` only asks whether an
expression downcasts to `UnKnownColumn`. -/
inductive PhysExpr where
  | unKnownColumn (name : String)
  | column (name : String) (index : Nat)
deriving DecidableEq

/-- `e.as_any().downcast_ref::<UnKnownColumn>().is_some()`. -/
def PhysExpr.isUnKnownColumn : PhysExpr → Bool
  | .unKnownColumn _ => true
  | .column _ _ => false

/-- DataFusion's `Partitioning` enum (three variants). -/
inductive Partitioning where
  | unknownPartitioning (n : Nat)
  | roundRobinBatch (n : Nat)
  | hash (exprs : List PhysExpr) (n : Nat)
deriving DecidableEq

/-- `Partitioning::partition_count`. -/
def Partitioning.partitionCount : Partitioning → Nat
  | .unknownPartitioning n => n
  | .roundRobinBatch n => n
  | .hash _ n => n

/-- The physical-plan tree.  The planner downcasts to three concrete
operator shapes and constructs shuffle writers/readers; every other
operator is `otherOp`, carrying the child list, declared schema and
declared output partitioning that the planner reads polymorphically. -/
inductive Plan where
  | repartition (child : Plan) (target : Partitioning)
  | coalescePartitions (child : Plan)
  | sortPreservingMerge (child : Plan)
  | shuffleWriter (stageId : Nat) (child : Plan) (partitioning : Partitioning) (dir : String)
  | shuffleReader (stageId : Nat) (schema : Schema) (partitioning : Partitioning) (dir : String)
  | otherOp (name : String) (schema : Schema) (partitioning : Partitioning)
      (children : List Plan)

/-- `ExecutionPlan::schema`.  Single-child wrappers report their child's
schema (`ShuffleWriterExec::schema` returns `self.plan.schema()`);
`ShuffleReaderExec` and generic operators report their stored schema. -/
def Plan.schema : Plan → Schema
  | .repartition child _ => child.schema
  | .coalescePartitions child => child.schema
  | .sortPreservingMerge child => child.schema
  | .shuffleWriter _ child _ _ => child.schema
  | .shuffleReader _ s _ _ => s
  | .otherOp _ s _ _ => s

/-- `plan.properties().output_partitioning()`.  A repartition reports its
target; coalesce-partitions and sort-preserving-merge report a single
unknown partition; the shuffle operators report their stored partitioning
(for the writer this is the partitioning normalized by its constructor);
generic operators report their stored partitioning. -/
def Plan.outputPartitioning : Plan → Partitioning
  | .repartition _ target => target
  | .coalescePartitions _ => .unknownPartitioning 1
  | .sortPreservingMerge _ => .unknownPartitioning 1
  | .shuffleWriter _ _ p _ => p
  | .shuffleReader _ _ p _ => p
  | .otherOp _ _ p _ => p

/-- Whether a plan node is a `ShuffleWriterExec` (at its root). -/
def Plan.isShuffleWriter : Plan → Bool
  | .shuffleWriter _ _ _ _ => true
  | _ => false

/-- `QueryStage::new(id, plan)`: a (stage-id, root-plan) pair. -/
structure QueryStage where
  id : Nat
  plan : Plan

def QueryStage.new (id : Nat) (plan : Plan) : QueryStage :=
  { id := id, plan := plan }

/-- `ExecutionGraph`: stages keyed by id (the `HashMap` is modelled as an
association list where insertion conses a fresh binding) plus the
`AtomicUsize` id generator. -/
structure ExecutionGraph where
  query_stages : List (Nat × QueryStage)
  id_generator : Nat

/-- `ExecutionGraph::new()`. -/
def ExecutionGraph.new : ExecutionGraph :=
  { query_stages := [], id_generator := 0 }

/-- `ExecutionGraph::add_query_stage`; returns the updated graph and the
stage id that the Rust method returns. -/
def ExecutionGraph.add_query_stage (g : ExecutionGraph) (stage_id : Nat) (plan : Plan) :
    ExecutionGraph × Nat :=
  ({ g with query_stages := (stage_id, QueryStage.new stage_id plan) :: g.query_stages },
   stage_id)

/-- `ExecutionGraph::next_id`: `fetch_add(1)` returns the old counter. -/
def ExecutionGraph.next_id (g : ExecutionGraph) : Nat × ExecutionGraph :=
  (g.id_generator, { g with id_generator := g.id_generator + 1 })

/-- The max-id scan in `get_final_query_stage` (`max_id` starts at 0). -/
def ExecutionGraph.maxStageId (g : ExecutionGraph) : Nat :=
  g.query_stages.foldl (fun m kv => if kv.1 > m then kv.1 else m) 0

/-- `self.query_stages.get(&id)` on the association list. -/
def ExecutionGraph.lookupStage (g : ExecutionGraph) (id : Nat) : Option QueryStage :=
  match g.query_stages.find? (fun kv => kv.1 == id) with
  | some kv => some kv.2
  | none => none

/-- Whether a stage with the given id exists. -/
def ExecutionGraph.hasStage (g : ExecutionGraph) (id : Nat) : Bool :=
  g.query_stages.any (fun kv => kv.1 == id)

/-- `ExecutionGraph::get_final_query_stage`: the stage with maximal id (the
Rust `unwrap` of the lookup is modelled by `Option`). -/
def ExecutionGraph.get_final_query_stage (g : ExecutionGraph) : Option QueryStage :=
  g.lookupStage g.maxStageId

/-- The `Uuid::new_v4()` of `create_temp_dir`, modelled as a fixed
canonical-form string (its randomness plays no role in any claim). -/
def uuidV4 : String := "00000000-0000-4000-8000-000000000000"

/-- `create_temp_dir(stage_id)`: `/tmp/ray-sql-{uuid}-stage-{stage_id}`
(the `std::fs::create_dir` side effect is not modelled; the planner claims
do not depend on it). -/
def create_temp_dir (stage_id : Nat) : String :=
  "/tmp/ray-sql-" ++ uuidV4 ++ "-stage-" ++ toString stage_id

/-- `ShuffleWriterExec::new`: normalizes the target partitioning (empty
hash keys become unknown; hash keys that are `UnKnownColumn` are filtered
out) and stores everything else as given. -/
def ShuffleWriterExec.new (stage_id : Nat) (plan : Plan) (partitioning : Partitioning)
    (shuffle_dir : String) : Plan :=
  let partitioning :=
    match partitioning with
    | Partitioning.hash expr n =>
        if expr.isEmpty then Partitioning.unknownPartitioning n
        else Partitioning.hash (expr.filter (fun e => !e.isUnKnownColumn)) n
    | p => p
  Plan.shuffleWriter stage_id plan partitioning shuffle_dir

/-- `create_shuffle_exchange`: mint a stage id, build a shuffle writer over
the subtree, register it as a new stage, and return a shuffle reader that
references the same stage id, the subtree's schema, and the (un-normalized)
partitioning scheme. -/
def create_shuffle_exchange (plan : Plan) (g : ExecutionGraph)
    (partitioning_scheme : Partitioning) : Plan × ExecutionGraph :=
  let minted := g.next_id
  let stage_id := minted.1
  let g1 := minted.2
  let temp_dir := create_temp_dir stage_id
  let shuffle_writer := ShuffleWriterExec.new stage_id plan partitioning_scheme temp_dir
  let added := g1.add_query_stage stage_id shuffle_writer
  (Plan.shuffleReader added.2 plan.schema partitioning_scheme temp_dir, added.1)

mutual

/-- `generate_query_stages`: post-order rewrite.  Children are rewritten
first (sequentially, threading the graph); then the node is dispatched on
its shape: a repartition into unknown or round-robin is elided, a
repartition into hash becomes a shuffle exchange, a coalesce-partitions or
sort-preserving-merge has its sole child replaced by a shuffle exchange
carrying the child's output partitioning, and any other node is returned
with its rewritten children. -/
def generate_query_stages : Plan → ExecutionGraph → Plan × ExecutionGraph
  | .repartition child target, g =>
      match target with
      | .unknownPartitioning _ => generate_query_stages child g
      | .roundRobinBatch _ => generate_query_stages child g
      | .hash ks n =>
          create_shuffle_exchange (generate_query_stages child g).1
            (generate_query_stages child g).2 (Partitioning.hash ks n)
  | .coalescePartitions child, g =>
      (Plan.coalescePartitions
        (create_shuffle_exchange (generate_query_stages child g).1
          (generate_query_stages child g).2
          (generate_query_stages child g).1.outputPartitioning).1,
       (create_shuffle_exchange (generate_query_stages child g).1
          (generate_query_stages child g).2
          (generate_query_stages child g).1.outputPartitioning).2)
  | .sortPreservingMerge child, g =>
      (Plan.sortPreservingMerge
        (create_shuffle_exchange (generate_query_stages child g).1
          (generate_query_stages child g).2
          (generate_query_stages child g).1.outputPartitioning).1,
       (create_shuffle_exchange (generate_query_stages child g).1
          (generate_query_stages child g).2
          (generate_query_stages child g).1.outputPartitioning).2)
  | .shuffleWriter sid child pt dir, g =>
      (Plan.shuffleWriter sid (generate_query_stages child g).1 pt dir,
       (generate_query_stages child g).2)
  | .shuffleReader sid sch pt dir, _g =>
      (Plan.shuffleReader sid sch pt dir, _g)
  | .otherOp name sch pt children, g =>
      (Plan.otherOp name sch pt (generate_query_stages_children children g).1,
       (generate_query_stages_children children g).2)

/-- The sequential rewrite of a child list (`children().into_iter().map(..)
.collect::<Result<Vec<_>>>()`), threading the graph left to right. -/
def generate_query_stages_children : List Plan → ExecutionGraph → List Plan × ExecutionGraph
  | [], g => ([], g)
  | p :: ps, g =>
      ((generate_query_stages p g).1
          :: (generate_query_stages_children ps (generate_query_stages p g).2).1,
       (generate_query_stages_children ps (generate_query_stages p g).2).2)

end

/-- `make_execution_graph`: rewrite the plan, coalesce the root to a single
partition when it emits more than one, and register it as the final
stage. -/
def make_execution_graph (plan : Plan) : ExecutionGraph :=
  let g := ExecutionGraph.new
  let rewritten := generate_query_stages plan g
  let root := rewritten.1
  let g1 := rewritten.2
  if root.outputPartitioning.partitionCount > 1 then
    let minted := g1.next_id
    (minted.2.add_query_stage minted.1 (Plan.coalescePartitions root)).1
  else
    let minted := g1.next_id
    (minted.2.add_query_stage minted.1 root).1

/-- Outcome of running a piece of Rust code that can return a value,
return an error (`Err`), or panic (`unimplemented!`, `.unwrap()` on an
`Err`).  A panic is modelled as `abort` and is distinct from a returned
error value. -/
inductive Outcome (α : Type) where
  | ok (a : α)
  | err (msg : String)
  | abort (msg : String)
deriving DecidableEq

/-- Filesystem model for the writer: whether creating a file at a path
succeeds (`File::create` / `IPCWriter::new`), and whether writes to an
open file at a path succeed (`FileWriter::try_new`, `write`, `finish`). -/
structure FsModel where
  createOk : String → Bool
  writeOk : String → Bool

/-- An Arrow record batch: its schema fields, its columns (each a list of
cell values), and its in-memory byte size
(`get_array_memory_size`). -/
structure RecordBatch where
  fields : List ArrowField
  cols : List (List Int)
  byteSize : Nat
deriving DecidableEq

/-- `RecordBatch::num_rows` (all columns share one length). -/
def RecordBatch.numRows (b : RecordBatch) : Nat :=
  (b.cols.headD []).length

/-- `RecordBatch::num_columns`. -/
def RecordBatch.numCols (b : RecordBatch) : Nat :=
  b.cols.length

/-- `PartitionStats` returned by `write_stream_to_disk` (the i64 fields
hold non-negative counts). -/
structure PartitionStats where
  num_rows : Nat
  num_batches : Nat
  num_bytes : Nat
deriving DecidableEq

/-- The shuffle file name
`/{shuffle_dir}/shuffle_{stage_id}_{input_partition}_{output_partition}.arrow`. -/
def shuffleFileName (shuffle_dir : String) (stage_id input_partition output_partition : Nat) :
    String :=
  "/" ++ shuffle_dir ++ "/shuffle_" ++ toString stage_id ++ "_"
    ++ toString input_partition ++ "_" ++ toString output_partition ++ ".arrow"

/-- The schema of the writer's single-row metrics batch:
two nullable Int32 fields. -/
def metricsSchema : List ArrowField :=
  [{ name := "shuffle_repart_time", dtype := DType.int32, nullable := true },
   { name := "shuffle_write_time", dtype := DType.int32, nullable := true }]

/-- The single-row metrics batch the writer emits: one Int32 value per
column, holding the accumulated repartition and write times. -/
def metricsBatch (repart_time write_time : Nat) : RecordBatch :=
  { fields := metricsSchema,
    cols := [[Int.ofNat repart_time], [Int.ofNat write_time]],
    byteSize := 0 }

/-- The batch-consuming loop of `write_stream_to_disk`: a child-stream
error propagates (`let batch = result?`); otherwise row / batch / byte
counts accumulate.  Per-batch write failures are subsumed by the
`writeOk` check made once per path in `write_stream_to_disk`. -/
def writeStreamLoop : List (Except String RecordBatch) → Nat → Nat → Nat →
    Outcome PartitionStats
  | [], rows, batches, bytes =>
      .ok { num_rows := rows, num_batches := batches, num_bytes := bytes }
  | .error e :: _, _, _, _ => .err e
  | .ok b :: rest, rows, batches, bytes =>
      writeStreamLoop rest (rows + b.numRows) (batches + 1) (bytes + b.byteSize)

/-- `write_stream_to_disk(stream, path, metric)`.  The Rust code calls
`File::create(path).unwrap()`: a failing create PANICS (the error-mapping
code is commented out in the source) — modelled by `abort`.  Failures of
the `FileWriter` itself (`try_new` writes the header, `write`, `finish`)
are propagated with `?` — modelled by the `writeOk` check yielding
`err`. -/
def write_stream_to_disk (fs : FsModel) (stream : List (Except String RecordBatch))
    (path : String) : Outcome PartitionStats :=
  if fs.createOk path then
    if fs.writeOk path then writeStreamLoop stream 0 0 0
    else .err "io error"
  else .abort "called Result::unwrap on an Err value"

/-- One `partitioner.partition` callback step of the Hash branch: write
`output_batch` to the writer for `output_partition`, lazily opening it
(`IPCWriter::new(path)?` — a failing open is a propagated error, not a
panic).  State: the list of opened shuffle file paths. -/
def hashWriteOne (fs : FsModel) (openFiles : List String) (path : String) :
    Outcome (List String) :=
  if openFiles.contains path then
    if fs.writeOk path then .ok openFiles else .err "io error"
  else
    if fs.createOk path then
      if fs.writeOk path then .ok (openFiles ++ [path]) else .err "io error"
    else .err "io error"

/-- Write all sub-batches produced by the partitioner for one input
batch. -/
def hashWriteBatch (fs : FsModel) (shuffle_dir : String) (stage_id input_partition : Nat) :
    List (Nat × RecordBatch) → List String → Outcome (List String)
  | [], openFiles => .ok openFiles
  | (output_partition, _) :: rest, openFiles =>
      match hashWriteOne fs openFiles
          (shuffleFileName shuffle_dir stage_id input_partition output_partition) with
      | .ok openFiles2 => hashWriteBatch fs shuffle_dir stage_id input_partition rest openFiles2
      | .err e => .err e
      | .abort m => .abort m

/-- The stream loop of the Hash branch: child-stream errors propagate;
each batch is split by the partitioner and written out; at end-of-stream
every opened writer is finished (covered per path by `writeOk`). -/
def hashLoop (fs : FsModel) (shuffle_dir : String) (stage_id input_partition : Nat)
    (partitionBatch : RecordBatch → List (Nat × RecordBatch)) :
    List (Except String RecordBatch) → List String → Outcome (List String)
  | [], openFiles => .ok openFiles
  | .error e :: _, _ => .err e
  | .ok b :: rest, openFiles =>
      match hashWriteBatch fs shuffle_dir stage_id input_partition (partitionBatch b) openFiles with
      | .ok openFiles2 => hashLoop fs shuffle_dir stage_id input_partition partitionBatch rest openFiles2
      | .err e => .err e
      | .abort m => .abort m

/-- The body of the future built by `ShuffleWriterExec::execute` — the
code that runs when the returned stream is first polled.  Returns the
batches the stream yields (or the error / panic outcome) together with
the shuffle files written.  Round-robin hits `unimplemented!()` before
touching the input or the filesystem.  Unknown partitioning streams the
input to one pass-through file.  Hash partitioning builds a
`BatchPartitioner` (whose fallible construction is the `partitionerNew`
argument: DataFusion code outside this repository) and writes one lazily
created file per non-empty output partition.  On success both data
branches return the single-row metrics batch. -/
def shuffleWriterBody (partitioning : Partitioning) (stage_id input_partition : Nat)
    (shuffle_dir : String) (fs : FsModel)
    (partitionerNew : Except String (RecordBatch → List (Nat × RecordBatch)))
    (input : List (Except String RecordBatch)) (repart_time write_time : Nat) :
    Outcome (List RecordBatch) × List String :=
  match partitioning with
  | .roundRobinBatch _ => (.abort "not implemented", [])
  | .unknownPartitioning _ =>
      match write_stream_to_disk fs input (shuffleFileName shuffle_dir stage_id input_partition 0) with
      | .ok _ => (.ok [metricsBatch repart_time write_time],
                  [shuffleFileName shuffle_dir stage_id input_partition 0])
      | .err e => (.err e, [])
      | .abort m => (.abort m, [])
  | .hash _ _ =>
      match partitionerNew with
      | .error e => (.err e, [])
      | .ok partitionBatch =>
          match hashLoop fs shuffle_dir stage_id input_partition partitionBatch input [] with
          | .ok files => (.ok [metricsBatch repart_time write_time], files)
          | .err e => (.err e, [])
          | .abort m => (.abort m, [])

/-- The stream value returned by `ShuffleWriterExec::execute`: its declared
schema (the `RecordBatchStreamAdapter` is built with `self.schema()`), the
deferred body outcome, and the shuffle files the body writes. -/
structure WriterStream where
  schema : List ArrowField
  body : Outcome (List RecordBatch)
  filesWritten : List String

/-- `ShuffleWriterExec::execute(input_partition, ctx)`.  The child's
execution (`self.plan.execute(..)?`) is the `childStream` argument: if it
errors, `execute` itself returns the error; otherwise `execute` returns
`Ok` with a stream whose declared schema is the child's schema and whose
deferred body is `shuffleWriterBody`.  `repart_time` / `write_time` are
the values the two time metrics hold when the body completes. -/
def ShuffleWriterExec.execute (stage_id input_partition : Nat) (partitioning : Partitioning)
    (shuffle_dir : String) (childSchema : List ArrowField) (fs : FsModel)
    (partitionerNew : Except String (RecordBatch → List (Nat × RecordBatch)))
    (childStream : Except String (List (Except String RecordBatch)))
    (repart_time write_time : Nat) : Except String WriterStream :=
  match childStream with
  | .error e => .error e
  | .ok input =>
      .ok { schema := childSchema
            body := (shuffleWriterBody partitioning stage_id input_partition shuffle_dir fs
                      partitionerNew input repart_time write_time).1
            filesWritten := (shuffleWriterBody partitioning stage_id input_partition shuffle_dir fs
                      partitionerNew input repart_time write_time).2 }

/-- `ShuffleWriterExec::with_new_children`: the body is
`unimplemented!()`, a panic for every argument. -/
def ShuffleWriterExec.with_new_children (_children : List Plan) : Outcome Plan :=
  .abort "not implemented"

mutual

/-- Every node of the plan declares at least one output partition.  This
is the well-formedness every DataFusion plan satisfies; it is the only
assumption the final-stage cardinality claim needs. -/
def Plan.partsPositive : Plan → Bool
  | .repartition child target => decide (1 ≤ target.partitionCount) && child.partsPositive
  | .coalescePartitions child => child.partsPositive
  | .sortPreservingMerge child => child.partsPositive
  | .shuffleWriter _ child pt _ => decide (1 ≤ pt.partitionCount) && child.partsPositive
  | .shuffleReader _ _ pt _ => decide (1 ≤ pt.partitionCount)
  | .otherOp _ _ pt children => decide (1 ≤ pt.partitionCount) && Plan.partsPositiveList children

/-- `partsPositive` over a child list. -/
def Plan.partsPositiveList : List Plan → Bool
  | [] => true
  | p :: ps => p.partsPositive && Plan.partsPositiveList ps

end

/-- Planner invariant on the graph while `generate_query_stages` runs:
every registered stage id is below the id counter, every id below the
counter is registered, and every registered stage is rooted in a shuffle
writer and records its own key as its id. -/
def ExecutionGraph.Inv (g : ExecutionGraph) : Prop :=
  (∀ kv ∈ g.query_stages, kv.1 < g.id_generator) ∧
  (∀ i, i < g.id_generator → ∃ kv ∈ g.query_stages, kv.1 = i) ∧
  (∀ kv ∈ g.query_stages, kv.2.plan.isShuffleWriter = true ∧ kv.2.id = kv.1)

theorem ExecutionGraph.inv_new : ExecutionGraph.new.Inv := by
  refine ⟨?_, ?_, ?_⟩ <;> simp [ExecutionGraph.new, ExecutionGraph.Inv]

/-- `ShuffleWriterExec::new` always builds a shuffle-writer node. -/
theorem ShuffleWriterExec.new_isShuffleWriter (stage_id : Nat) (plan : Plan)
    (partitioning : Partitioning) (dir : String) :
    (ShuffleWriterExec.new stage_id plan partitioning dir).isShuffleWriter = true := by
  cases partitioning with
  | hash exprs n =>
      by_cases h : exprs.isEmpty <;>
        simp [ShuffleWriterExec.new, Plan.isShuffleWriter, h]
  | unknownPartitioning n => rfl
  | roundRobinBatch n => rfl

/-- What `create_shuffle_exchange` literally does to its inputs. -/
theorem create_shuffle_exchange_eq (plan : Plan) (g : ExecutionGraph) (s : Partitioning) :
    create_shuffle_exchange plan g s =
      (Plan.shuffleReader g.id_generator plan.schema s (create_temp_dir g.id_generator),
       { query_stages :=
           (g.id_generator,
            QueryStage.new g.id_generator
              (ShuffleWriterExec.new g.id_generator plan s (create_temp_dir g.id_generator)))
             :: g.query_stages,
         id_generator := g.id_generator + 1 }) := rfl

theorem create_shuffle_exchange_inv (plan : Plan) (g : ExecutionGraph) (s : Partitioning)
    (h : g.Inv) : (create_shuffle_exchange plan g s).2.Inv := by
  obtain ⟨hb, hc, hw⟩ := h
  rw [create_shuffle_exchange_eq]
  refine ⟨?_, ?_, ?_⟩
  · intro kv hkv
    rcases List.mem_cons.mp hkv with h1 | h1
    · subst h1; exact Nat.lt_succ_self _
    · exact Nat.lt_succ_of_lt (hb kv h1)
  · intro i hi
    rcases Nat.lt_succ_iff_lt_or_eq.mp hi with h1 | h1
    · obtain ⟨kv, hkv, hkvi⟩ := hc i h1
      exact ⟨kv, List.mem_cons_of_mem _ hkv, hkvi⟩
    · refine ⟨_, List.mem_cons_self _ _, h1.symm⟩
  · intro kv hkv
    rcases List.mem_cons.mp hkv with h1 | h1
    · subst h1
      exact ⟨ShuffleWriterExec.new_isShuffleWriter _ _ _ _, rfl⟩
    · exact hw kv h1

mutual

/-- `generate_query_stages` preserves the planner invariant. -/
theorem generate_query_stages_inv : ∀ (p : Plan) (g : ExecutionGraph),
    g.Inv → (generate_query_stages p g).2.Inv
  | .repartition child target, g, h => by
      have ih := generate_query_stages_inv child g h
      cases target with
      | unknownPartitioning n => simpa [generate_query_stages] using ih
      | roundRobinBatch n => simpa [generate_query_stages] using ih
      | hash ks n =>
          simpa [generate_query_stages] using
            create_shuffle_exchange_inv (generate_query_stages child g).1
              (generate_query_stages child g).2 (Partitioning.hash ks n) ih
  | .coalescePartitions child, g, h => by
      have ih := generate_query_stages_inv child g h
      simpa [generate_query_stages] using
        create_shuffle_exchange_inv (generate_query_stages child g).1
          (generate_query_stages child g).2
          (generate_query_stages child g).1.outputPartitioning ih
  | .sortPreservingMerge child, g, h => by
      have ih := generate_query_stages_inv child g h
      simpa [generate_query_stages] using
        create_shuffle_exchange_inv (generate_query_stages child g).1
          (generate_query_stages child g).2
          (generate_query_stages child g).1.outputPartitioning ih
  | .shuffleWriter sid child pt dir, g, h => by
      have ih := generate_query_stages_inv child g h
      simpa [generate_query_stages] using ih
  | .shuffleReader sid sch pt dir, g, h => by
      simpa [generate_query_stages] using h
  | .otherOp name sch pt children, g, h => by
      have ih := generate_query_stages_children_inv children g h
      simpa [generate_query_stages] using ih

theorem generate_query_stages_children_inv : ∀ (ps : List Plan) (g : ExecutionGraph),
    g.Inv → (generate_query_stages_children ps g).2.Inv
  | [], g, h => by simpa [generate_query_stages_children] using h
  | p :: ps, g, h => by
      have ih := generate_query_stages_inv p g h
      have ih2 := generate_query_stages_children_inv ps (generate_query_stages p g).2 ih
      simpa [generate_query_stages_children] using ih2

end

/-- The rewritten root has at least one output partition whenever the
input plan does everywhere. -/
theorem generate_query_stages_partCount : ∀ (p : Plan) (g : ExecutionGraph),
    p.partsPositive = true →
    1 ≤ (generate_query_stages p g).1.outputPartitioning.partitionCount
  | .repartition child target, g, h => by
      rw [Plan.partsPositive, Bool.and_eq_true, decide_eq_true_eq] at h
      obtain ⟨ht, hc⟩ := h
      cases target with
      | unknownPartitioning n =>
          simpa [generate_query_stages] using
            generate_query_stages_partCount child g hc
      | roundRobinBatch n =>
          simpa [generate_query_stages] using
            generate_query_stages_partCount child g hc
      | hash ks n =>
          simp only [generate_query_stages, create_shuffle_exchange_eq,
            Plan.outputPartitioning]
          simpa [Partitioning.partitionCount] using ht
  | .coalescePartitions child, g, _h => by
      simp [generate_query_stages, Plan.outputPartitioning, Partitioning.partitionCount]
  | .sortPreservingMerge child, g, _h => by
      simp [generate_query_stages, Plan.outputPartitioning, Partitioning.partitionCount]
  | .shuffleWriter sid child pt dir, g, h => by
      rw [Plan.partsPositive, Bool.and_eq_true, decide_eq_true_eq] at h
      simpa [generate_query_stages, Plan.outputPartitioning] using h.1
  | .shuffleReader sid sch pt dir, g, h => by
      rw [Plan.partsPositive, decide_eq_true_eq] at h
      simpa [generate_query_stages, Plan.outputPartitioning] using h
  | .otherOp name sch pt children, g, h => by
      rw [Plan.partsPositive, Bool.and_eq_true, decide_eq_true_eq] at h
      simpa [generate_query_stages, Plan.outputPartitioning] using h.1

/-- The root plan `make_execution_graph` registers as the final stage. -/
def finalRoot (p : Plan) : Plan :=
  if (generate_query_stages p ExecutionGraph.new).1.outputPartitioning.partitionCount > 1 then
    Plan.coalescePartitions (generate_query_stages p ExecutionGraph.new).1
  else
    (generate_query_stages p ExecutionGraph.new).1

/-- What `make_execution_graph` literally produces: the rewritten graph
with one more stage, keyed by the counter value, holding `finalRoot`. -/
theorem make_execution_graph_eq (p : Plan) :
    make_execution_graph p =
      { query_stages :=
          ((generate_query_stages p ExecutionGraph.new).2.id_generator,
           QueryStage.new (generate_query_stages p ExecutionGraph.new).2.id_generator
             (finalRoot p))
            :: (generate_query_stages p ExecutionGraph.new).2.query_stages,
        id_generator := (generate_query_stages p ExecutionGraph.new).2.id_generator + 1 } := by
  simp only [make_execution_graph, finalRoot]
  split <;> rfl

/-- The max-scan of `get_final_query_stage` is absorbed by a bound. -/
theorem foldl_stage_max (l : List (Nat × QueryStage)) (m : Nat)
    (h : ∀ kv ∈ l, kv.1 ≤ m) :
    l.foldl (fun acc kv => if kv.1 > acc then kv.1 else acc) m = m := by
  induction l generalizing m with
  | nil => rfl
  | cons a l ih =>
      have ha : ¬ a.1 > m := Nat.not_lt.mpr (h a (List.mem_cons_self _ _))
      simp only [List.foldl_cons, if_neg ha]
      exact ih m (fun kv hkv => h kv (List.mem_cons_of_mem _ hkv))

/-- In the graph returned by `make_execution_graph` the maximal stage id
is the last-minted one, and looking it up yields the final root. -/
theorem make_execution_graph_final (p : Plan) :
    (make_execution_graph p).maxStageId
        = (generate_query_stages p ExecutionGraph.new).2.id_generator ∧
    (make_execution_graph p).get_final_query_stage
        = some (QueryStage.new (generate_query_stages p ExecutionGraph.new).2.id_generator
            (finalRoot p)) := by
  have hinv := generate_query_stages_inv p ExecutionGraph.new ExecutionGraph.inv_new
  obtain ⟨hb, _, _⟩ := hinv
  have hmax : (make_execution_graph p).maxStageId
      = (generate_query_stages p ExecutionGraph.new).2.id_generator := by
    rw [make_execution_graph_eq]
    show List.foldl _ 0 (_ :: _) = _
    rw [List.foldl_cons]
    have h0 : (if (generate_query_stages p ExecutionGraph.new).2.id_generator > 0 then
        (generate_query_stages p ExecutionGraph.new).2.id_generator else 0)
        = (generate_query_stages p ExecutionGraph.new).2.id_generator := by
      rcases Nat.eq_zero_or_pos (generate_query_stages p ExecutionGraph.new).2.id_generator with
        h | h
      · simp [h]
      · simp [h]
    rw [h0]
    exact foldl_stage_max _ _ (fun kv hkv => Nat.le_of_lt (hb kv hkv))
  refine ⟨hmax, ?_⟩
  show (make_execution_graph p).lookupStage _ = _
  rw [hmax, make_execution_graph_eq]
  simp [ExecutionGraph.lookupStage]

/-- C1: `generate_query_stages` elides a re-partition whose target is
Unknown or Round-robin (it returns the rewritten child and the graph
unchanged from the child's rewrite, minting no stage), while a
re-partition with a Hash target is replaced by a shuffle exchange — the
result is a shuffle reader and exactly one new stage is registered. -/
theorem generate_query_stages_repartition_rules (child : Plan) (g : ExecutionGraph)
    (n : Nat) (ks : List PhysExpr) :
    generate_query_stages (.repartition child (.unknownPartitioning n)) g
      = generate_query_stages child g
  ∧ generate_query_stages (.repartition child (.roundRobinBatch n)) g
      = generate_query_stages child g
  ∧ generate_query_stages (.repartition child (.hash ks n)) g
      = create_shuffle_exchange (generate_query_stages child g).1
          (generate_query_stages child g).2 (.hash ks n)
  ∧ (generate_query_stages (.repartition child (.hash ks n)) g).2.query_stages.length
      = (generate_query_stages child g).2.query_stages.length + 1
  ∧ (generate_query_stages (.repartition child (.hash ks n)) g).1
      = Plan.shuffleReader (generate_query_stages child g).2.id_generator
          (generate_query_stages child g).1.schema (.hash ks n)
          (create_temp_dir (generate_query_stages child g).2.id_generator) := by
  refine ⟨?_, ?_, ?_, ?_, ?_⟩
  · simp [generate_query_stages]
  · simp [generate_query_stages]
  · simp [generate_query_stages]
  · simp [generate_query_stages, create_shuffle_exchange_eq]
  · simp [generate_query_stages, create_shuffle_exchange_eq]

/-- C2: the final stage of every graph produced by `make_execution_graph`
(on a plan all of whose nodes declare at least one partition) has output
partition count exactly 1; when the rewritten root emits more than one
partition it is wrapped in a coalesce-partitions operator before being
registered. -/
theorem make_execution_graph_final_stage_single_partition (p : Plan)
    (h : p.partsPositive = true) :
    ∃ st : QueryStage,
      (make_execution_graph p).get_final_query_stage = some st ∧
      st.plan.outputPartitioning.partitionCount = 1 ∧
      ((generate_query_stages p ExecutionGraph.new).1.outputPartitioning.partitionCount > 1 →
        st.plan = Plan.coalescePartitions (generate_query_stages p ExecutionGraph.new).1) := by
  obtain ⟨-, hfin⟩ := make_execution_graph_final p
  refine ⟨_, hfin, ?_, ?_⟩
  · show (finalRoot p).outputPartitioning.partitionCount = 1
    unfold finalRoot
    split
    · simp [Plan.outputPartitioning, Partitioning.partitionCount]
    · have h1 := generate_query_stages_partCount p ExecutionGraph.new h
      omega
  · intro hgt
    show finalRoot p = _
    unfold finalRoot
    rw [if_pos hgt]

/-- Witness for C2 at a concrete two-partition scan. -/
theorem make_execution_graph_final_stage_single_partition_witness :
    (Plan.otherOp "ParquetExec" [] (.unknownPartitioning 2) []).partsPositive = true
  ∧ ∃ st : QueryStage,
      (make_execution_graph
          (Plan.otherOp "ParquetExec" [] (.unknownPartitioning 2) [])).get_final_query_stage
        = some st ∧
      st.plan.outputPartitioning.partitionCount = 1 ∧
      ((generate_query_stages (Plan.otherOp "ParquetExec" [] (.unknownPartitioning 2) [])
            ExecutionGraph.new).1.outputPartitioning.partitionCount > 1 →
        st.plan = Plan.coalescePartitions
          (generate_query_stages (Plan.otherOp "ParquetExec" [] (.unknownPartitioning 2) [])
            ExecutionGraph.new).1) :=
  ⟨by simp [Plan.partsPositive, Plan.partsPositiveList, Partitioning.partitionCount],
   make_execution_graph_final_stage_single_partition _
     (by simp [Plan.partsPositive, Plan.partsPositiveList, Partitioning.partitionCount])⟩

/-- C3: a coalesce-partitions or order-preserving-merge node is
reconstructed over a shuffle reader whose partitioning is the (rewritten)
child's output partitioning unchanged, and the backing writer stage —
built over that child with the same partitioning scheme — is newly
registered in the graph. -/
theorem generate_query_stages_breaker_shuffle (child : Plan) (g : ExecutionGraph) :
    (generate_query_stages (.coalescePartitions child) g).1
      = Plan.coalescePartitions
          (Plan.shuffleReader (generate_query_stages child g).2.id_generator
            (generate_query_stages child g).1.schema
            (generate_query_stages child g).1.outputPartitioning
            (create_temp_dir (generate_query_stages child g).2.id_generator))
  ∧ (generate_query_stages (.sortPreservingMerge child) g).1
      = Plan.sortPreservingMerge
          (Plan.shuffleReader (generate_query_stages child g).2.id_generator
            (generate_query_stages child g).1.schema
            (generate_query_stages child g).1.outputPartitioning
            (create_temp_dir (generate_query_stages child g).2.id_generator))
  ∧ (generate_query_stages (.coalescePartitions child) g).2.query_stages
      = ((generate_query_stages child g).2.id_generator,
         QueryStage.new (generate_query_stages child g).2.id_generator
           (ShuffleWriterExec.new (generate_query_stages child g).2.id_generator
             (generate_query_stages child g).1
             (generate_query_stages child g).1.outputPartitioning
             (create_temp_dir (generate_query_stages child g).2.id_generator)))
        :: (generate_query_stages child g).2.query_stages
  ∧ (generate_query_stages (.sortPreservingMerge child) g).2.query_stages
      = ((generate_query_stages child g).2.id_generator,
         QueryStage.new (generate_query_stages child g).2.id_generator
           (ShuffleWriterExec.new (generate_query_stages child g).2.id_generator
             (generate_query_stages child g).1
             (generate_query_stages child g).1.outputPartitioning
             (create_temp_dir (generate_query_stages child g).2.id_generator)))
        :: (generate_query_stages child g).2.query_stages := by
  refine ⟨?_, ?_, ?_, ?_⟩ <;>
    simp [generate_query_stages, create_shuffle_exchange_eq]

/-- C4: the stage ids of every graph produced by `make_execution_graph`
are exactly the contiguous range below the id counter (so `[0, N]` with
no gaps), and at least one stage exists. -/
theorem make_execution_graph_ids_contiguous (p : Plan) (i : Nat) :
    ((make_execution_graph p).hasStage i = true
        ↔ i < (make_execution_graph p).id_generator)
  ∧ 0 < (make_execution_graph p).id_generator := by
  have hinv := generate_query_stages_inv p ExecutionGraph.new ExecutionGraph.inv_new
  obtain ⟨hb, hc, -⟩ := hinv
  rw [make_execution_graph_eq]
  constructor
  · simp only [ExecutionGraph.hasStage, List.any_cons, Bool.or_eq_true, beq_iff_eq,
      List.any_eq_true]
    constructor
    · rintro (h1 | ⟨kv, hkv, hkvi⟩)
      · omega
      · have := hb kv hkv
        omega
    · intro hi
      rcases Nat.lt_succ_iff_lt_or_eq.mp hi with h1 | h1
      · obtain ⟨kv, hkv, hkvi⟩ := hc i h1
        exact Or.inr ⟨kv, hkv, by simpa using hkvi⟩
      · exact Or.inl h1.symm
  · simp

/-- C5 counterexample: on a single-partition scan the final (and only)
stage's root plan is the scan itself, not a shuffle writer — refuting the
claim that every stage, the final one included, ends in a shuffle
writer. -/
theorem final_stage_not_shuffle_writer :
    ∃ st : QueryStage,
      (make_execution_graph
          (Plan.otherOp "ParquetExec" [] (.unknownPartitioning 1) [])).get_final_query_stage
        = some st
      ∧ st.plan.isShuffleWriter = false :=
  ⟨QueryStage.new 0 (Plan.otherOp "ParquetExec" [] (.unknownPartitioning 1) []), rfl, rfl⟩

/-- C5 amended: every stage of the graph other than the final one (the
final stage is the head of the stage list, so the others are its tail; all
of them were registered by `create_shuffle_exchange`) is rooted in a
shuffle writer, and a shuffle writer's output partitioning — which is the
stage's output partitioning — is exactly its stored target
partitioning. -/
theorem non_final_stages_end_in_shuffle_writer (p : Plan) :
    ((make_execution_graph p).query_stages.tail.all
        (fun kv => kv.2.plan.isShuffleWriter)) = true
  ∧ ∀ (sid : Nat) (c : Plan) (pt : Partitioning) (dir : String),
      (Plan.shuffleWriter sid c pt dir).outputPartitioning = pt := by
  refine ⟨?_, fun _ _ _ _ => rfl⟩
  have hinv := generate_query_stages_inv p ExecutionGraph.new ExecutionGraph.inv_new
  obtain ⟨-, -, hw⟩ := hinv
  rw [make_execution_graph_eq]
  show (generate_query_stages p ExecutionGraph.new).2.query_stages.all _ = true
  rw [List.all_eq_true]
  intro kv hkv
  exact (hw kv hkv).1

/-- C6: `ShuffleWriterExec::new` rewrites Hash with empty keys to Unknown,
filters `UnKnownColumn` keys out of a non-empty Hash (a retained key is
exactly one that occurs in the input list and is not an `UnKnownColumn`),
and stores Unknown and Round-robin — and every other input — as given. -/
theorem shuffle_writer_new_normalizes (stage_id : Nat) (plan : Plan) (dir : String)
    (n : Nat) (exprs : List PhysExpr) (e : PhysExpr) (hne : exprs ≠ []) :
    ShuffleWriterExec.new stage_id plan (.hash [] n) dir
      = Plan.shuffleWriter stage_id plan (.unknownPartitioning n) dir
  ∧ ShuffleWriterExec.new stage_id plan (.hash exprs n) dir
      = Plan.shuffleWriter stage_id plan
          (.hash (exprs.filter (fun e2 => !e2.isUnKnownColumn)) n) dir
  ∧ (e ∈ exprs.filter (fun e2 => !e2.isUnKnownColumn)
        ↔ e ∈ exprs ∧ e.isUnKnownColumn = false)
  ∧ ShuffleWriterExec.new stage_id plan (.unknownPartitioning n) dir
      = Plan.shuffleWriter stage_id plan (.unknownPartitioning n) dir
  ∧ ShuffleWriterExec.new stage_id plan (.roundRobinBatch n) dir
      = Plan.shuffleWriter stage_id plan (.roundRobinBatch n) dir := by
  refine ⟨rfl, ?_, ?_, rfl, rfl⟩
  · cases exprs with
    | nil => exact absurd rfl hne
    | cons a l => simp [ShuffleWriterExec.new]
  · simp [List.mem_filter]

/-- Witness for C6 on a concrete two-element key list containing one
unresolvable column. -/
theorem shuffle_writer_new_normalizes_witness :
    ([PhysExpr.column "a" 0, PhysExpr.unKnownColumn "b"] ≠ ([] : List PhysExpr))
  ∧ (ShuffleWriterExec.new 0 (Plan.otherOp "scan" [] (.unknownPartitioning 1) [])
        (.hash [] 4) "d"
      = Plan.shuffleWriter 0 (Plan.otherOp "scan" [] (.unknownPartitioning 1) [])
          (.unknownPartitioning 4) "d"
  ∧ ShuffleWriterExec.new 0 (Plan.otherOp "scan" [] (.unknownPartitioning 1) [])
        (.hash [PhysExpr.column "a" 0, PhysExpr.unKnownColumn "b"] 4) "d"
      = Plan.shuffleWriter 0 (Plan.otherOp "scan" [] (.unknownPartitioning 1) [])
          (.hash ([PhysExpr.column "a" 0, PhysExpr.unKnownColumn "b"].filter
            (fun e2 => !e2.isUnKnownColumn)) 4) "d"
  ∧ (PhysExpr.column "a" 0
        ∈ [PhysExpr.column "a" 0, PhysExpr.unKnownColumn "b"].filter
            (fun e2 => !e2.isUnKnownColumn)
        ↔ PhysExpr.column "a" 0 ∈ [PhysExpr.column "a" 0, PhysExpr.unKnownColumn "b"]
          ∧ (PhysExpr.column "a" 0).isUnKnownColumn = false)
  ∧ ShuffleWriterExec.new 0 (Plan.otherOp "scan" [] (.unknownPartitioning 1) [])
        (.unknownPartitioning 4) "d"
      = Plan.shuffleWriter 0 (Plan.otherOp "scan" [] (.unknownPartitioning 1) [])
          (.unknownPartitioning 4) "d"
  ∧ ShuffleWriterExec.new 0 (Plan.otherOp "scan" [] (.unknownPartitioning 1) [])
        (.roundRobinBatch 4) "d"
      = Plan.shuffleWriter 0 (Plan.otherOp "scan" [] (.unknownPartitioning 1) [])
          (.roundRobinBatch 4) "d") :=
  ⟨by decide,
   shuffle_writer_new_normalizes 0 (Plan.otherOp "scan" [] (.unknownPartitioning 1) []) "d" 4
     [PhysExpr.column "a" 0, PhysExpr.unKnownColumn "b"] (PhysExpr.column "a" 0) (by decide)⟩

/-- C7: constructing a writer with a Round-robin target stores it
unchanged, and executing it surfaces the `unimplemented!` not-supported
panic at the very start of stream execution: for every filesystem, every
partitioner and every input stream, the body aborts with "not
implemented", consumes nothing, and writes no shuffle file. -/
theorem shuffle_writer_roundrobin_not_supported (stage_id input_partition n : Nat)
    (child : Plan) (dir : String) (childSchema : List ArrowField) (fs : FsModel)
    (pn : Except String (RecordBatch → List (Nat × RecordBatch)))
    (input : List (Except String RecordBatch)) (rt wt : Nat) :
    ShuffleWriterExec.new stage_id child (.roundRobinBatch n) dir
      = Plan.shuffleWriter stage_id child (.roundRobinBatch n) dir
  ∧ ShuffleWriterExec.execute stage_id input_partition (.roundRobinBatch n) dir childSchema fs
        pn (.ok input) rt wt
      = .ok { schema := childSchema, body := .abort "not implemented", filesWritten := [] }
  ∧ shuffleWriterBody (.roundRobinBatch n) stage_id input_partition dir fs pn input rt wt
      = (.abort "not implemented", []) :=
  ⟨rfl, rfl, rfl⟩

/-- C8: `write_stream_to_disk` PANICS (`File::create(path).unwrap()`) when
the file cannot be created, instead of returning the error value the claim
and the spec promise; a failure of the file writer itself is propagated as
an error as claimed. -/
theorem write_stream_to_disk_create_unwrap :
    write_stream_to_disk
        { createOk := fun _ => false, writeOk := fun _ => true }
        [] "/tmp/dir/shuffle_0_0_0.arrow"
      = .abort "called Result::unwrap on an Err value"
  ∧ write_stream_to_disk
        { createOk := fun _ => true, writeOk := fun _ => false }
        [] "/tmp/dir/shuffle_0_0_0.arrow"
      = .err "io error" :=
  ⟨rfl, rfl⟩

/-- C9: whenever `execute` returns a stream and that stream's body
completes successfully, the stream yields exactly the single-row metrics
batch — one row, two Int32 columns holding the cumulative repartition and
write times — while the stream's declared schema is the child's schema,
exactly as `ShuffleWriterExec::schema` (the `Plan.schema` of a
shuffle-writer node) reports the child's schema. -/
theorem shuffle_writer_success_metrics (stage_id input_partition rt wt : Nat)
    (pt : Partitioning) (dir : String) (sch : List ArrowField) (fs : FsModel)
    (pn : Except String (RecordBatch → List (Nat × RecordBatch)))
    (cs : Except String (List (Except String RecordBatch)))
    (ws : WriterStream) (bs : List RecordBatch)
    (h1 : ShuffleWriterExec.execute stage_id input_partition pt dir sch fs pn cs rt wt
            = .ok ws)
    (h2 : ws.body = .ok bs) :
    bs = [metricsBatch rt wt]
  ∧ (metricsBatch rt wt).numRows = 1
  ∧ (metricsBatch rt wt).numCols = 2
  ∧ (metricsBatch rt wt).fields = metricsSchema
  ∧ ws.schema = sch
  ∧ ∀ (sid : Nat) (c : Plan) (q : Partitioning) (d : String),
      (Plan.shuffleWriter sid c q d).schema = c.schema := by
  cases cs with
  | error e => exact absurd h1 (by simp [ShuffleWriterExec.execute])
  | ok input =>
      rw [ShuffleWriterExec.execute] at h1
      injection h1 with h1
      subst h1
      simp only at h2
      refine ⟨?_, rfl, rfl, rfl, rfl, fun _ _ _ _ => rfl⟩
      cases pt with
      | roundRobinBatch n => simp [shuffleWriterBody] at h2
      | unknownPartitioning n =>
          simp only [shuffleWriterBody] at h2
          split at h2 <;> simp_all
      | hash ks n =>
          simp only [shuffleWriterBody] at h2
          split at h2
          · simp_all
          · split at h2 <;> simp_all

/-- Witness for C9: a concrete successful pass-through execution. -/
theorem shuffle_writer_success_metrics_witness :
    (ShuffleWriterExec.execute 3 0 (.unknownPartitioning 2) "d"
        [{ name := "a", dtype := DType.int32, nullable := false }]
        { createOk := fun _ => true, writeOk := fun _ => true }
        (.ok (fun _ => [])) (.ok []) 7 9
      = .ok { schema := [{ name := "a", dtype := DType.int32, nullable := false }],
              body := .ok [metricsBatch 7 9],
              filesWritten := [shuffleFileName "d" 3 0 0] })
  ∧ ({ schema := [{ name := "a", dtype := DType.int32, nullable := false }],
       body := .ok [metricsBatch 7 9],
       filesWritten := [shuffleFileName "d" 3 0 0] : WriterStream }.body
      = .ok [metricsBatch 7 9])
  ∧ ([metricsBatch 7 9] = [metricsBatch 7 9]
  ∧ (metricsBatch 7 9).numRows = 1
  ∧ (metricsBatch 7 9).numCols = 2
  ∧ (metricsBatch 7 9).fields = metricsSchema
  ∧ ({ schema := [{ name := "a", dtype := DType.int32, nullable := false }],
       body := .ok [metricsBatch 7 9],
       filesWritten := [shuffleFileName "d" 3 0 0] : WriterStream }).schema
      = [{ name := "a", dtype := DType.int32, nullable := false }]
  ∧ ∀ (sid : Nat) (c : Plan) (q : Partitioning) (d : String),
      (Plan.shuffleWriter sid c q d).schema = c.schema) :=
  ⟨rfl, rfl,
   shuffle_writer_success_metrics 3 0 7 9 (.unknownPartitioning 2) "d"
     [{ name := "a", dtype := DType.int32, nullable := false }]
     { createOk := fun _ => true, writeOk := fun _ => true }
     (.ok (fun _ => [])) (.ok []) _ _ rfl rfl⟩

/-- C10: `ShuffleWriterExec::with_new_children` is `unimplemented!()`:
for every replacement child list it panics, never returning a rebuilt
operator and never returning an error value. -/
theorem with_new_children_never_returns (children : List Plan) :
    ShuffleWriterExec.with_new_children children = .abort "not implemented"
  ∧ (∀ r : Plan, ShuffleWriterExec.with_new_children children ≠ .ok r)
  ∧ (∀ e : String, ShuffleWriterExec.with_new_children children ≠ .err e) :=
  ⟨rfl,
   fun _ h => by simp [ShuffleWriterExec.with_new_children] at h,
   fun _ h => by simp [ShuffleWriterExec.with_new_children] at h⟩
